import Mathlib

/-!
Verification of the selection state machine and span resolver of
`src/selection.rs` (grid text selection for a terminal renderer).

The Rust code is shallowly embedded: `Line`, `Column` and `Linear` are
`usize` newtypes, modelled as `Nat`.  Subtraction sites that the source
leaves unguarded (where a Rust `usize` subtraction would panic in debug
builds or wrap in release builds) are modelled with the checked
subtraction `usub`, which returns `none` exactly when the Rust code
would underflow; subtraction sites that the source explicitly guards
are modelled with plain truncated `Nat` subtraction, which agrees with
the guarded `usize` value.
-/

/-- Modelled from the spec: the `index` module (not among the given
sources) provides `Point`, a (line, column) grid coordinate. -/
structure Point where
  line : Nat
  col : Nat
deriving DecidableEq, Repr

/-- Modelled from the spec: `Point` is ordered lexicographically by
line then column (the `Ord` instance lives in the missing `index` module). -/
def Point.lt (a b : Point) : Prop :=
  a.line < b.line ∨ (a.line = b.line ∧ a.col < b.col)

instance (a b : Point) : Decidable (Point.lt a b) := by
  unfold Point.lt
  exact inferInstance

/-- `a ≤ b` in the lexicographic `Point` order. -/
def Point.le (a b : Point) : Prop :=
  Point.lt a b ∨ a = b

instance (a b : Point) : Decidable (Point.le a b) := by
  unfold Point.le
  exact inferInstance

/-- Which half of a cell an endpoint refers to (`index::Side`). -/
inductive Side where
  | Left : Side
  | Right : Side
deriving DecidableEq, Repr

/-- How to interpret the locations of a `Span` (`SpanType` in the source). -/
inductive SpanType where
  | Inclusive : SpanType
  | Exclusive : SpanType
  | ExcludeTail : SpanType
  | ExcludeFront : SpanType
deriving DecidableEq, Repr

/-- A span of selected cells (`Span` in the source). -/
structure Span where
  front : Point
  tail : Point
  ty : SpanType
deriving DecidableEq, Repr

/-- The selection state (`Selection` in the source): `Empty`, or
`Active { start, end, start_side, end_side }`. -/
inductive Selection where
  | Empty : Selection
  | Active (start : Point) (end_ : Point) (start_side : Side) (end_side : Side) : Selection
deriving DecidableEq, Repr

/-- `Selection::new` / `Default::default`. -/
def Selection.new : Selection := Selection.Empty

/-- `Selection::clear`: unconditionally resets the state to `Empty`. -/
def Selection.clear (_s : Selection) : Selection := Selection.Empty

/-- `Selection::is_empty`. -/
def Selection.is_empty (s : Selection) : Bool :=
  match s with
  | Selection.Empty => true
  | Selection.Active _ _ _ _ => false

/-- `Selection::update`: starting a selection from `Empty`, or moving
the `end` endpoint of an `Active` one. -/
def Selection.update (s : Selection) (location : Point) (side : Side) : Selection :=
  match s with
  | Selection.Empty => Selection.Active location location side side
  | Selection.Active start _ start_side _ =>
      Selection.Active start location start_side side

/-- The canonical ordering step of `Selection::span` (lines 98-104 of the
source): if `start > end` the endpoints and their sides are swapped. -/
def Selection.canonical (start end_ : Point) (start_side end_side : Side) :
    Point × Point × Side × Side :=
  if Point.lt end_ start then (end_, start, end_side, start_side)
  else (start, end_, start_side, end_side)

/-- `Selection::span`: resolves the active selection to an `Option Span`.
The `tail.col - front.col` in the adjacency test is a `usize` subtraction
evaluated only when `tail.line == front.line`; truncated `Nat` subtraction
gives the same comparison result against `1` in every case. -/
def Selection.span (s : Selection) : Option Span :=
  match s with
  | Selection.Active start end_ start_side end_side =>
      let c := Selection.canonical start end_ start_side end_side
      let front := c.1
      let tail := c.2.1
      let front_side := c.2.2.1
      let tail_side := c.2.2.2
      if start = end_ then
        if start_side ≠ end_side then
          some { ty := SpanType.Inclusive, front := front, tail := tail }
        else
          none
      else
        if (tail.line = front.line ∧ tail.col - front.col = 1) ∧
            front_side = Side.Right ∧ tail_side = Side.Left then
          none
        else
          some (match front_side, tail_side with
            | Side.Left, Side.Right =>
                { front := front, tail := tail, ty := SpanType.Inclusive }
            | Side.Right, Side.Left =>
                { front := front, tail := tail, ty := SpanType.Exclusive }
            | Side.Left, Side.Left =>
                { front := front, tail := tail, ty := SpanType.ExcludeTail }
            | Side.Right, Side.Right =>
                { front := front, tail := tail, ty := SpanType.ExcludeFront })
  | Selection.Empty => none

/-- Checked `usize` subtraction: `none` exactly when the Rust operation
`a - b` would underflow (panic in debug builds, wrap in release builds). -/
def usub (a b : Nat) : Option Nat :=
  if b ≤ a then some (a - b) else none

/-- `Span::wrap_start`: advance `start` by one cell, wrapping at the last
column.  `cols - 1` is an unguarded `usize` subtraction in the source. -/
def Span.wrap_start (start : Point) (cols : Nat) : Option Point :=
  (usub cols 1).map fun w =>
    if start.col = w then { line := start.line + 1, col := 0 }
    else { line := start.line, col := start.col + 1 }

/-- `Span::wrap_end`: retreat `end` by one cell, wrapping at column 0 onto
the previous line.  `end.col - 1` in the else-branch is an unguarded
`usize` subtraction: it underflows when `end = (0, 0)`. -/
def Span.wrap_end (end_ : Point) (cols : Nat) : Option Point :=
  if end_.col = 0 ∧ end_.line ≠ 0 then
    (usub end_.line 1).map fun l => { line := l, col := cols }
  else
    (usub end_.col 1).map fun c => { line := end_.line, col := c }

/-- `Span::to_locations`: boundary points adjusted per `SpanType`.
`none` marks the cases where the Rust code would underflow. -/
def Span.to_locations (s : Span) (cols : Nat) : Option (Point × Point) :=
  match s.ty with
  | SpanType.Inclusive => some (s.front, s.tail)
  | SpanType.Exclusive =>
      (Span.wrap_start s.front cols).bind fun f =>
        (Span.wrap_end s.tail cols).map fun t => (f, t)
  | SpanType.ExcludeFront =>
      (Span.wrap_start s.front cols).map fun f => (f, s.tail)
  | SpanType.ExcludeTail =>
      (Span.wrap_end s.tail cols).map fun t => (s.front, t)

/-- `Span::exclude_start`. -/
def Span.exclude_start (start : Nat) : Nat :=
  start + 1

/-- `Span::exclude_end`: guarded decrement, clamped at 0. -/
def Span.exclude_end (end_ : Nat) : Nat :=
  if end_ > 0 then end_ - 1 else end_

/-- `ToRange::to_range` for `Span`: the inclusive linear range
`start...end`, returned as the pair of its two bounds. -/
def Span.to_range (s : Span) (cols : Nat) : Nat × Nat :=
  let start := s.front.line * cols + s.front.col
  let end_ := s.tail.line * cols + s.tail.col
  match s.ty with
  | SpanType.Inclusive => (start, end_)
  | SpanType.Exclusive => (Span.exclude_start start, Span.exclude_end end_)
  | SpanType.ExcludeFront => (Span.exclude_start start, end_)
  | SpanType.ExcludeTail => (start, Span.exclude_end end_)

/-- A sequence of `update` calls applied to an initially empty selection. -/
def applyUpdates (us : List (Point × Side)) : Selection :=
  us.foldl (fun s u => Selection.update s u.1 u.2) Selection.Empty

/-- Modelled from the spec: the spec's `advance(p)` step of
`to_locations` (§4.3), with `usize` arithmetic made explicit via `usub`. -/
def advanceSpec (p : Point) (width : Nat) : Option Point :=
  (usub width 1).map fun w =>
    if p.col = w then { line := p.line + 1, col := 0 }
    else { line := p.line, col := p.col + 1 }

/-- Modelled from the spec: the spec's `retreat(p)` step of
`to_locations` (§4.3), with `usize` arithmetic made explicit via `usub`. -/
def retreatSpec (p : Point) (width : Nat) : Option Point :=
  if p.col = 0 ∧ p.line ≠ 0 then
    (usub p.line 1).map fun l => { line := l, col := width }
  else
    (usub p.col 1).map fun c => { line := p.line, col := c }

/-- The lexicographic order on explicit point literals. -/
theorem Point.lt_mk (al ac bl bc : Nat) :
    Point.lt ⟨al, ac⟩ ⟨bl, bc⟩ ↔ (al < bl ∨ (al = bl ∧ ac < bc)) := Iff.rfl

/-- The lexicographic order on points is irreflexive. -/
theorem Point.lt_irrefl (p : Point) : ¬ Point.lt p p := by
  rcases p with ⟨l, c⟩
  simp [Point.lt]

/-- The lexicographic order on points is total: `¬ b < a` gives `a ≤ b`. -/
theorem Point.not_lt_le (a b : Point) (h : ¬ Point.lt b a) : Point.le a b := by
  rcases a with ⟨al, ac⟩
  rcases b with ⟨bl, bc⟩
  simp only [Point.lt, Point.le, Point.mk.injEq, not_or, not_and] at *
  omega

/-- `a ≤ b` together with `a ≠ b` gives `a < b` on points. -/
theorem Point.lt_of_le_of_ne (a b : Point) (hle : Point.le a b) (hne : a ≠ b) :
    Point.lt a b := by
  rcases hle with h | h
  · exact h
  · exact absurd h hne

/-- Characterization of a successful `span` on an `Active` selection: the
returned endpoints are the stored ones, swapped exactly when `start > end`,
hence always canonically ordered, and strictly ordered unless the span is
the single-cell `Inclusive` one. -/
theorem span_some_spec (start end_ : Point) (ss es : Side) (sp : Span)
    (h : Selection.span (Selection.Active start end_ ss es) = some sp) :
    (if Point.lt end_ start then sp.front = end_ ∧ sp.tail = start
     else sp.front = start ∧ sp.tail = end_) ∧
    Point.le sp.front sp.tail ∧
    (sp.ty ≠ SpanType.Inclusive → Point.lt sp.front sp.tail) := by
  by_cases hlt : Point.lt end_ start
  · simp only [Selection.span, Selection.canonical, if_pos hlt] at h
    by_cases heq : start = end_
    · subst heq
      exact absurd hlt (Point.lt_irrefl start)
    · rw [if_neg heq] at h
      by_cases hadj : (start.line = end_.line ∧ start.col - end_.col = 1) ∧
          es = Side.Right ∧ ss = Side.Left
      · rw [if_pos hadj] at h
        exact absurd h (by simp)
      · rw [if_neg hadj] at h
        cases es <;> cases ss <;>
          · rw [Option.some.injEq] at h
            subst h
            exact ⟨by rw [if_pos hlt]; exact ⟨rfl, rfl⟩, Or.inl hlt, fun _ => hlt⟩
  · simp only [Selection.span, Selection.canonical, if_neg hlt] at h
    by_cases heq : start = end_
    · subst heq
      rw [if_pos rfl] at h
      by_cases hside : ss ≠ es
      · rw [if_pos hside, Option.some.injEq] at h
        subst h
        exact ⟨by rw [if_neg hlt]; exact ⟨rfl, rfl⟩, Or.inr rfl, fun hne => absurd rfl hne⟩
      · rw [if_neg hside] at h
        exact absurd h (by simp)
    · rw [if_neg heq] at h
      by_cases hadj : (end_.line = start.line ∧ end_.col - start.col = 1) ∧
          ss = Side.Right ∧ es = Side.Left
      · rw [if_pos hadj] at h
        exact absurd h (by simp)
      · rw [if_neg hadj] at h
        have hle : Point.le start end_ := Point.not_lt_le start end_ hlt
        have hstrict : Point.lt start end_ := Point.lt_of_le_of_ne start end_ hle heq
        cases ss <;> cases es <;>
          · rw [Option.some.injEq] at h
            subst h
            exact ⟨by rw [if_neg hlt]; exact ⟨rfl, rfl⟩, hle, fun _ => hstrict⟩

/-- Adjacency suppression (lines 121-126 of the source): canonicalized
endpoints on the same line, one column apart, with sides `Right`/`Left`,
make `span` return `none`. -/
theorem span_adjacent_none (start end_ : Point) (ss es : Side)
    (front tail : Point) (fs ts : Side)
    (hc : Selection.canonical start end_ ss es = (front, tail, fs, ts))
    (hline : tail.line = front.line) (hcol : tail.col = front.col + 1)
    (hfs : fs = Side.Right) (hts : ts = Side.Left) :
    Selection.span (Selection.Active start end_ ss es) = none := by
  by_cases hlt : Point.lt end_ start
  · rw [Selection.canonical, if_pos hlt] at hc
    simp only [Prod.mk.injEq] at hc
    obtain ⟨rfl, rfl, rfl, rfl⟩ := hc
    have hne : start ≠ end_ := by
      rintro rfl
      exact Point.lt_irrefl start hlt
    simp only [Selection.span, Selection.canonical, if_pos hlt, if_neg hne]
    rw [if_pos ⟨⟨hline, by omega⟩, hfs, hts⟩]
  · rw [Selection.canonical, if_neg hlt] at hc
    simp only [Prod.mk.injEq] at hc
    obtain ⟨rfl, rfl, rfl, rfl⟩ := hc
    have hne : start ≠ end_ := by
      rintro rfl
      omega
    simp only [Selection.span, Selection.canonical, if_neg hlt, if_neg hne]
    rw [if_pos ⟨⟨hline, by omega⟩, hfs, hts⟩]

/-- The general case of `span` (lines 128-153 of the source): strictly
ordered canonical endpoints, not adjacency-suppressed, give the span type
determined by the side pair. -/
theorem span_general_case (start end_ : Point) (ss es : Side) (front tail : Point) (fs ts : Side)
    (hc : Selection.canonical start end_ ss es = (front, tail, fs, ts))
    (hlt : Point.lt front tail)
    (hsup : ¬((tail.line = front.line ∧ tail.col - front.col = 1) ∧
        fs = Side.Right ∧ ts = Side.Left)) :
    Selection.span (Selection.Active start end_ ss es) =
      some { front := front, tail := tail,
             ty := match fs, ts with
                   | Side.Left, Side.Right => SpanType.Inclusive
                   | Side.Right, Side.Left => SpanType.Exclusive
                   | Side.Left, Side.Left => SpanType.ExcludeTail
                   | Side.Right, Side.Right => SpanType.ExcludeFront } := by
  by_cases hlt2 : Point.lt end_ start
  · rw [Selection.canonical, if_pos hlt2] at hc
    simp only [Prod.mk.injEq] at hc
    obtain ⟨rfl, rfl, rfl, rfl⟩ := hc
    have hne : start ≠ end_ := by
      rintro rfl
      exact Point.lt_irrefl start hlt2
    simp only [Selection.span, Selection.canonical, if_pos hlt2, if_neg hne, if_neg hsup]
    cases es <;> cases ss <;> rfl
  · rw [Selection.canonical, if_neg hlt2] at hc
    simp only [Prod.mk.injEq] at hc
    obtain ⟨rfl, rfl, rfl, rfl⟩ := hc
    have hne : start ≠ end_ := by
      rintro rfl
      exact Point.lt_irrefl start hlt
    simp only [Selection.span, Selection.canonical, if_neg hlt2, if_neg hne, if_neg hsup]
    cases ss <;> cases es <;> rfl

/-- C1: for an Active selection with canonicalized endpoints `front < tail`
that is not suppressed by the single-cell or adjacency rules, `span` returns
`Some (Span {ty, front, tail})` with the type determined by the pair
`(front_side, tail_side)`: Left/Right gives Inclusive, Right/Left gives
Exclusive, Left/Left gives ExcludeTail, Right/Right gives ExcludeFront. -/
theorem spec_C1 (start end_ : Point) (ss es : Side) (front tail : Point) (fs ts : Side)
    (hc : Selection.canonical start end_ ss es = (front, tail, fs, ts))
    (hlt : Point.lt front tail)
    (hsup : ¬((tail.line = front.line ∧ tail.col - front.col = 1) ∧
        fs = Side.Right ∧ ts = Side.Left)) :
    Selection.span (Selection.Active start end_ ss es) =
      some { front := front, tail := tail,
             ty := match fs, ts with
                   | Side.Left, Side.Right => SpanType.Inclusive
                   | Side.Right, Side.Left => SpanType.Exclusive
                   | Side.Left, Side.Left => SpanType.ExcludeTail
                   | Side.Right, Side.Right => SpanType.ExcludeFront } :=
  span_general_case start end_ ss es front tail fs ts hc hlt hsup

/-- C1 witness: a concrete downward drag covering both endpoint cells. -/
theorem spec_C1_witness :
    Selection.span (Selection.Active ⟨0, 0⟩ ⟨0, 5⟩ Side.Left Side.Right) =
      some { front := ⟨0, 0⟩, tail := ⟨0, 5⟩, ty := SpanType.Inclusive } :=
  spec_C1 ⟨0, 0⟩ ⟨0, 5⟩ Side.Left Side.Right ⟨0, 0⟩ ⟨0, 5⟩ Side.Left Side.Right
    (by decide) (by decide) (by decide)

/-- C2: for every sequence of updates from Empty, a resolved span satisfies
`front ≤ tail` in the lexicographic Point order; and on an Active selection
the resolved endpoints are the stored ones, swapped exactly when
`start > end`. -/
theorem spec_C2 :
    (∀ us sp, Selection.span (applyUpdates us) = some sp →
        Point.le sp.front sp.tail) ∧
    (∀ start end_ ss es sp,
        Selection.span (Selection.Active start end_ ss es) = some sp →
        if Point.lt end_ start then sp.front = end_ ∧ sp.tail = start
        else sp.front = start ∧ sp.tail = end_) := by
  constructor
  · intro us sp h
    cases hs : applyUpdates us with
    | Empty =>
        rw [hs] at h
        exact absurd h (by simp [Selection.span])
    | Active start end_ ss es =>
        rw [hs] at h
        exact (span_some_spec start end_ ss es sp h).2.1
  · intro start end_ ss es sp h
    exact (span_some_spec start end_ ss es sp h).1

/-- C2 witness: an upward two-step drag resolving to a swapped span. -/
theorem spec_C2_witness :
    Point.le ⟨0, 0⟩ ⟨1, 2⟩ ∧
      (if Point.lt (⟨0, 0⟩ : Point) ⟨1, 2⟩ then
         (⟨0, 0⟩ : Point) = ⟨0, 0⟩ ∧ (⟨1, 2⟩ : Point) = ⟨1, 2⟩
       else (⟨0, 0⟩ : Point) = ⟨1, 2⟩ ∧ (⟨1, 2⟩ : Point) = ⟨0, 0⟩) := by
  constructor
  · exact spec_C2.1 [(⟨1, 2⟩, Side.Right), (⟨0, 0⟩, Side.Left)]
      { front := ⟨0, 0⟩, tail := ⟨1, 2⟩, ty := SpanType.Inclusive } (by decide)
  · exact spec_C2.2 ⟨1, 2⟩ ⟨0, 0⟩ Side.Right Side.Left
      { front := ⟨0, 0⟩, tail := ⟨1, 2⟩, ty := SpanType.Inclusive } (by decide)

/-- C3: `update` is total: from Empty it starts an Active selection with
both endpoints at the given location and both sides equal to the given
side; from Active it moves only `end`/`end_side`, keeping
`start`/`start_side`. -/
theorem spec_C3 :
    (∀ p s, Selection.update Selection.Empty p s = Selection.Active p p s s) ∧
    (∀ start end_ ss es p s,
        Selection.update (Selection.Active start end_ ss es) p s =
          Selection.Active start p ss s) :=
  ⟨fun _ _ => rfl, fun _ _ _ _ _ _ => rfl⟩

/-- C4: updating twice with the same point and side gives no span, while
updating the same point with the two different sides (in either order)
gives the inclusive single-cell span. -/
theorem spec_C4 :
    (∀ p s, Selection.span
        (Selection.update (Selection.update Selection.Empty p s) p s) = none) ∧
    (∀ p, Selection.span
        (Selection.update (Selection.update Selection.Empty p Side.Left) p Side.Right) =
        some { front := p, tail := p, ty := SpanType.Inclusive }) ∧
    (∀ p, Selection.span
        (Selection.update (Selection.update Selection.Empty p Side.Right) p Side.Left) =
        some { front := p, tail := p, ty := SpanType.Inclusive }) := by
  refine ⟨fun p s => ?_, fun p => ?_, fun p => ?_⟩ <;>
    simp [Selection.update, Selection.span, Selection.canonical, Point.lt_irrefl p]

/-- C5: selecting two horizontally adjacent cells by only their inner
halves (Right side of the left cell, Left side of the right cell) resolves
to no span, in either drag order and in general for any canonicalized
Active selection of that shape. -/
theorem spec_C5 :
    (∀ start end_ ss es front tail fs ts,
        Selection.canonical start end_ ss es = (front, tail, fs, ts) →
        tail.line = front.line → tail.col = front.col + 1 →
        fs = Side.Right → ts = Side.Left →
        Selection.span (Selection.Active start end_ ss es) = none) ∧
    (∀ l c, Selection.span
        (applyUpdates [(⟨l, c⟩, Side.Right), (⟨l, c + 1⟩, Side.Left)]) = none) ∧
    (∀ l c, Selection.span
        (applyUpdates [(⟨l, c + 1⟩, Side.Left), (⟨l, c⟩, Side.Right)]) = none) := by
  refine ⟨fun start end_ ss es front tail fs ts hc h1 h2 h3 h4 =>
      span_adjacent_none start end_ ss es front tail fs ts hc h1 h2 h3 h4,
    fun l c => ?_, fun l c => ?_⟩
  · show Selection.span (Selection.Active ⟨l, c⟩ ⟨l, c + 1⟩ Side.Right Side.Left) = none
    refine span_adjacent_none ⟨l, c⟩ ⟨l, c + 1⟩ Side.Right Side.Left
      ⟨l, c⟩ ⟨l, c + 1⟩ Side.Right Side.Left ?_ rfl rfl rfl rfl
    rw [Selection.canonical, if_neg]
    rw [Point.lt_mk]
    omega
  · show Selection.span (Selection.Active ⟨l, c + 1⟩ ⟨l, c⟩ Side.Left Side.Right) = none
    refine span_adjacent_none ⟨l, c + 1⟩ ⟨l, c⟩ Side.Left Side.Right
      ⟨l, c⟩ ⟨l, c + 1⟩ Side.Right Side.Left ?_ rfl rfl rfl rfl
    rw [Selection.canonical, if_pos]
    exact Or.inr ⟨rfl, Nat.lt_succ_self c⟩

/-- C5 witness: the adjacency seam at columns 0 and 1 of line 0. -/
theorem spec_C5_witness :
    Selection.span (Selection.Active ⟨0, 0⟩ ⟨0, 1⟩ Side.Right Side.Left) = none :=
  spec_C5.1 ⟨0, 0⟩ ⟨0, 1⟩ Side.Right Side.Left ⟨0, 0⟩ ⟨0, 1⟩ Side.Right Side.Left
    (by decide) rfl rfl rfl rfl

/-- C6: `to_locations` adjusts the boundary points per span type using the
spec's `advance`/`retreat` steps, and the concrete width-5 upward-drag
scenario resolves to the ExcludeFront span `(0,1)..(1,1)` whose locations
are `((0,2), (1,1))`. -/
theorem spec_C6 :
    (∀ sp w,
      (sp.ty = SpanType.Inclusive →
          Span.to_locations sp w = some (sp.front, sp.tail)) ∧
      (sp.ty = SpanType.Exclusive →
          Span.to_locations sp w =
            (advanceSpec sp.front w).bind fun f =>
              (retreatSpec sp.tail w).map fun t => (f, t)) ∧
      (sp.ty = SpanType.ExcludeFront →
          Span.to_locations sp w =
            (advanceSpec sp.front w).map fun f => (f, sp.tail)) ∧
      (sp.ty = SpanType.ExcludeTail →
          Span.to_locations sp w =
            (retreatSpec sp.tail w).map fun t => (sp.front, t))) ∧
    Selection.span (applyUpdates [(⟨1, 1⟩, Side.Right), (⟨0, 1⟩, Side.Right)]) =
      some { front := ⟨0, 1⟩, tail := ⟨1, 1⟩, ty := SpanType.ExcludeFront } ∧
    Span.to_locations { front := ⟨0, 1⟩, tail := ⟨1, 1⟩, ty := SpanType.ExcludeFront } 5 =
      some (⟨0, 2⟩, ⟨1, 1⟩) := by
  refine ⟨fun sp w => ⟨fun h => ?_, fun h => ?_, fun h => ?_, fun h => ?_⟩,
      by decide, by decide⟩ <;>
    · rcases sp with ⟨f, t, ty⟩
      subst h
      rfl

/-- C6 witness: the ExcludeFront case of the location adjustment at the
concrete span of the width-5 scenario. -/
theorem spec_C6_witness :
    Span.to_locations { front := ⟨0, 1⟩, tail := ⟨1, 1⟩, ty := SpanType.ExcludeFront } 5 =
      (advanceSpec ⟨0, 1⟩ 5).map fun f => (f, ⟨1, 1⟩) :=
  (spec_C6.1 { front := ⟨0, 1⟩, tail := ⟨1, 1⟩, ty := SpanType.ExcludeFront } 5).2.2.1 rfl

/-- The guarded decrement of `to_range` agrees with the truncated
decrement clamped at 0. -/
theorem exclude_end_eq (e : Nat) : Span.exclude_end e = e - 1 := by
  unfold Span.exclude_end
  split <;> omega

/-- C7: `to_range` returns the inclusive linear range on the flattened
offsets `line * width + col`, adding 1 to the start and/or subtracting 1
(clamped at 0) from the end according to the span type. -/
theorem spec_C7 (sp : Span) (w : Nat) :
    (sp.ty = SpanType.Inclusive → Span.to_range sp w =
        (sp.front.line * w + sp.front.col, sp.tail.line * w + sp.tail.col)) ∧
    (sp.ty = SpanType.Exclusive → Span.to_range sp w =
        (sp.front.line * w + sp.front.col + 1, sp.tail.line * w + sp.tail.col - 1)) ∧
    (sp.ty = SpanType.ExcludeFront → Span.to_range sp w =
        (sp.front.line * w + sp.front.col + 1, sp.tail.line * w + sp.tail.col)) ∧
    (sp.ty = SpanType.ExcludeTail → Span.to_range sp w =
        (sp.front.line * w + sp.front.col, sp.tail.line * w + sp.tail.col - 1)) := by
  refine ⟨fun h => ?_, fun h => ?_, fun h => ?_, fun h => ?_⟩ <;>
    · rcases sp with ⟨f, t, ty⟩
      subst h
      simp [Span.to_range, Span.exclude_start, exclude_end_eq]

/-- C7 witness: the Exclusive case at a concrete span and width 5. -/
theorem spec_C7_witness :
    Span.to_range { front := ⟨0, 1⟩, tail := ⟨1, 1⟩, ty := SpanType.Exclusive } 5 = (2, 5) :=
  (spec_C7 { front := ⟨0, 1⟩, tail := ⟨1, 1⟩, ty := SpanType.Exclusive } 5).2.1 rfl

/-- Checked subtraction succeeds exactly when it does not underflow. -/
theorem usub_isSome (a b : Nat) : (usub a b).isSome ↔ b ≤ a := by
  unfold usub
  split <;> simp_all

/-- `wrap_start` succeeds exactly when the grid has at least one column. -/
theorem wrap_start_isSome (p : Point) (cols : Nat) :
    (Span.wrap_start p cols).isSome ↔ 1 ≤ cols := by
  unfold Span.wrap_start usub
  split <;> simp_all

/-- `wrap_end` succeeds exactly when the point is not the origin: at
`(0, 0)` the unguarded column decrement underflows. -/
theorem wrap_end_isSome (p : Point) (cols : Nat) :
    (Span.wrap_end p cols).isSome ↔ ¬(p.line = 0 ∧ p.col = 0) := by
  rcases p with ⟨l, c⟩
  unfold Span.wrap_end usub
  dsimp only
  by_cases h1 : c = 0 ∧ l ≠ 0
  · rw [if_pos h1]
    split <;> simp_all
  · rw [if_neg h1]
    split <;> simp_all
    omega

/-- C8 counterexample: for the span with tail `(0, 0)` and a tail-excluding
type, the column retreat of `to_locations` underflows (the `usize`
subtraction `end.col - 1` in `wrap_end` is unguarded), contradicting the
claim that all boundary arithmetic is explicitly guarded. -/
theorem spec_C8_counterexample :
    Span.to_locations { front := ⟨0, 0⟩, tail := ⟨0, 0⟩, ty := SpanType.ExcludeTail } 5 =
      none := by decide

/-- C8 amended: `update`, `clear`, `is_empty`, `span` and `to_range` are
total, and the linear-offset decrement of `to_range` is explicitly clamped
at 0; but the column retreat of `to_locations` is unguarded at the origin:
`to_locations` succeeds exactly when the span type does not retreat a tail
equal to `(0, 0)` (and the width is at least 1 for the advancing types). -/
theorem spec_C8_amended (sp : Span) (w x : Nat) :
    Span.exclude_end x = x - 1 ∧
    ((Span.to_locations sp w).isSome ↔
      (sp.ty = SpanType.Inclusive ∨
       (sp.ty = SpanType.ExcludeFront ∧ 1 ≤ w) ∨
       (sp.ty = SpanType.ExcludeTail ∧ ¬(sp.tail.line = 0 ∧ sp.tail.col = 0)) ∨
       (sp.ty = SpanType.Exclusive ∧ 1 ≤ w ∧
         ¬(sp.tail.line = 0 ∧ sp.tail.col = 0)))) := by
  refine ⟨exclude_end_eq x, ?_⟩
  rcases sp with ⟨f, t, ty⟩
  cases ty with
  | Inclusive => simp [Span.to_locations]
  | Exclusive =>
      simp only [Span.to_locations]
      cases hs : Span.wrap_start f w with
      | none =>
          have := (wrap_start_isSome f w).symm
          simp_all [Option.isSome]
      | some fp =>
          have h1 : 1 ≤ w := by
            have := (wrap_start_isSome f w).mp
            simp_all [Option.isSome]
          cases he : Span.wrap_end t w with
          | none =>
              have := (wrap_end_isSome t w).symm
              simp_all [Option.isSome]
          | some tp =>
              have h2 : ¬(t.line = 0 ∧ t.col = 0) := by
                have := (wrap_end_isSome t w).mp
                simp_all [Option.isSome]
              simp_all [Option.isSome]
  | ExcludeFront =>
      simp only [Span.to_locations]
      cases hs : Span.wrap_start f w with
      | none =>
          have := (wrap_start_isSome f w).symm
          simp_all [Option.isSome]
      | some fp =>
          have h1 : 1 ≤ w := by
            have := (wrap_start_isSome f w).mp
            simp_all [Option.isSome]
          simp_all [Option.isSome]
  | ExcludeTail =>
      simp only [Span.to_locations]
      cases he : Span.wrap_end t w with
      | none =>
          have := (wrap_end_isSome t w).symm
          simp_all [Option.isSome]
      | some tp =>
          have h2 : ¬(t.line = 0 ∧ t.col = 0) := by
            have := (wrap_end_isSome t w).mp
            simp_all [Option.isSome]
          simp_all [Option.isSome]

/-- C9: adjacency suppression does not apply across a line wrap: with
canonicalized `front = (l, c)` of side Right and `tail = (l + 1, 0)` of
side Left, `span` returns the Exclusive span rather than `None`. -/
theorem spec_C9 (start end_ : Point) (ss es : Side) (front tail : Point) (fs ts : Side)
    (hc : Selection.canonical start end_ ss es = (front, tail, fs, ts))
    (hline : tail.line = front.line + 1) (_hcol : tail.col = 0)
    (hfs : fs = Side.Right) (hts : ts = Side.Left) :
    Selection.span (Selection.Active start end_ ss es) =
      some { front := front, tail := tail, ty := SpanType.Exclusive } := by
  subst hfs hts
  have hlt : Point.lt front tail := Or.inl (by omega)
  have hsup : ¬((tail.line = front.line ∧ tail.col - front.col = 1) ∧
      Side.Right = Side.Right ∧ Side.Left = Side.Left) := by
    rintro ⟨⟨h1, -⟩, -⟩
    omega
  exact span_general_case start end_ ss es front tail Side.Right Side.Left hc hlt hsup

/-- C9 witness: wrapping from `(0, 3)` Right down to `(1, 0)` Left. -/
theorem spec_C9_witness :
    Selection.span (Selection.Active ⟨0, 3⟩ ⟨1, 0⟩ Side.Right Side.Left) =
      some { front := ⟨0, 3⟩, tail := ⟨1, 0⟩, ty := SpanType.Exclusive } :=
  spec_C9 ⟨0, 3⟩ ⟨1, 0⟩ Side.Right Side.Left ⟨0, 3⟩ ⟨1, 0⟩ Side.Right Side.Left
    (by decide) rfl rfl rfl rfl

/-- C10: for any span actually produced by `span()`, the unguarded column
decrement in `wrap_end` is unreachable: a tail-retreating type forces
`front < tail`, so the tail is never the origin and `wrap_end` succeeds;
a tail equal to `(0, 0)` only occurs in the Inclusive single-cell span. -/
theorem spec_C10 (s : Selection) (sp : Span) (w : Nat)
    (h : Selection.span s = some sp) :
    ((sp.ty = SpanType.Exclusive ∨ sp.ty = SpanType.ExcludeTail) →
        Point.lt sp.front sp.tail ∧ ¬(sp.tail.line = 0 ∧ sp.tail.col = 0) ∧
        (Span.wrap_end sp.tail w).isSome) ∧
    (sp.tail.line = 0 → sp.tail.col = 0 →
        sp.ty = SpanType.Inclusive ∧ sp.front = sp.tail) := by
  have hspec : Point.le sp.front sp.tail ∧
      (sp.ty ≠ SpanType.Inclusive → Point.lt sp.front sp.tail) := by
    cases s with
    | Empty => exact absurd h (by simp [Selection.span])
    | Active start end_ ss es =>
        obtain ⟨-, h1, h2⟩ := span_some_spec start end_ ss es sp h
        exact ⟨h1, h2⟩
  obtain ⟨hle, hstrict⟩ := hspec
  constructor
  · intro hty
    have hne : sp.ty ≠ SpanType.Inclusive := by
      rcases hty with h1 | h1 <;> simp [h1]
    have hlt := hstrict hne
    simp only [Point.lt] at hlt
    refine ⟨hstrict hne, ?_, ?_⟩
    · rintro ⟨hl, hc0⟩
      rcases hlt with h2 | ⟨h2, h3⟩ <;> omega
    · rw [wrap_end_isSome]
      rintro ⟨hl, hc0⟩
      rcases hlt with h2 | ⟨h2, h3⟩ <;> omega
  · intro hl0 hc0
    by_cases hin : sp.ty = SpanType.Inclusive
    · refine ⟨hin, ?_⟩
      rcases hle with h2 | h2
      · simp only [Point.lt] at h2
        rcases h2 with h3 | ⟨h3, h4⟩ <;> omega
      · exact h2
    · have hlt := hstrict hin
      simp only [Point.lt] at hlt
      rcases hlt with h2 | ⟨h2, h3⟩ <;> omega

/-- C10 witness: a concrete Exclusive span produced by `span()`, whose tail
retreat succeeds at width 5. -/
theorem spec_C10_witness :
    Point.lt ⟨0, 0⟩ ⟨2, 3⟩ ∧ ¬((2 : Nat) = 0 ∧ (3 : Nat) = 0) ∧
      (Span.wrap_end ⟨2, 3⟩ 5).isSome :=
  (spec_C10 (Selection.Active ⟨0, 0⟩ ⟨2, 3⟩ Side.Right Side.Left)
    { front := ⟨0, 0⟩, tail := ⟨2, 3⟩, ty := SpanType.Exclusive } 5 (by decide)).1
    (Or.inl rfl)
